import Mathlib

/-!
Verification development for the AdaptLearn agent message bus and its
worker agents.  The definitions below are a shallow embedding of the
TypeScript sources: the Context Bus client (src/agents/scout/index.ts,
second document: dispatchMessage / pollMessages / claimMessage /
completeMessage / failMessage / updateMessageStatus), the zod schemas
(src/unnamed/part_014), the master agent router (src/agents/master/index.ts),
the research pipeline (src/agents/scout/research.ts), and the assessment
worker (src/unnamed/part_012, second document).

Modelling conventions:
- Timestamps (ISO-8601 strings in the source) are `Nat`, ordered as the
  strings are.
- Row ids (`gen_random_uuid()` primary keys) are `Nat`; `Store.nextId`
  supplies the freshness the database guarantees for a primary key.
- JSON payloads are association lists of `JsonVal`; `JsonVal` covers the
  JSON shapes this repository's payloads actually use.
- Database/network failures (`StoreError`) are outside the model: every
  bus operation is modelled on its success path, as the claims are about
  the lifecycle logic, not about the persistence layer failing.
-/

namespace AdaptLearn

/-- Agent names: `AgentName` enum, src/unnamed/part_014 lines 49-57. -/
inductive AgentName where
  | master
  | scout
  | content_creator
  | assessment
  | learning
  | chat_ui
deriving DecidableEq, Repr

/-- Message kinds: `MessageType` enum, src/unnamed/part_014 lines 61-78. -/
inductive MessageType where
  | UserMessage
  | JobDispatch
  | SkillMapReady
  | ContentReady
  | AssessmentResult
  | GapSignal
  | SessionUpdate
  | AssessmentTrigger
  | ProgressUpdate
deriving DecidableEq, Repr

/-- Message lifecycle states: `MessageStatus` enum, src/unnamed/part_014 line 82. -/
inductive MessageStatus where
  | pending
  | processing
  | done
  | failed
deriving DecidableEq, Repr

/-- User intents: `Intent` enum, src/unnamed/part_014 line 87. -/
inductive Intent where
  | research
  | create_content
  | assess
  | learn
  | unknown
deriving DecidableEq, Repr

/-- Depth levels: `Depth` enum, src/unnamed/part_014 line 92. -/
inductive Depth where
  | beginner
  | intermediate
  | advanced
deriving DecidableEq, Repr

/-- Assessment outcome: `Outcome` enum, src/unnamed/part_014 line 97. -/
inductive Outcome where
  | PASS
  | PARTIAL
  | FAIL
deriving DecidableEq, Repr

/-- Recommendation: `Recommendation` enum, src/unnamed/part_014 line 102. -/
inductive Recommendation where
  | advance
  | needs_remediation
  | needs_review
deriving DecidableEq, Repr

/-- An answer record, `AnswerRecordSchema`, src/unnamed/part_014 lines 179-183. -/
structure AnswerRecord where
  question_index : Nat
  user_answer : String
  correct : Bool
deriving DecidableEq, Repr

/-- A JSON value as it occurs in this repository's message payloads
(strings, numbers, booleans, null, string arrays, answer-record arrays). -/
inductive JsonVal where
  | str (s : String)
  | num (q : Rat)
  | jbool (b : Bool)
  | jnull
  | arrStr (xs : List String)
  | arrAns (xs : List AnswerRecord)
deriving DecidableEq, Repr

/-- A JSON object: what `z.record(z.unknown())` accepts as a payload. -/
abbrev Payload := List (String × JsonVal)

/-- A stored Context Bus message: `AgentMessageSchema`,
src/unnamed/part_014 lines 218-228 / the `agent_messages` table of
src/unnamed/part_001. -/
structure Message where
  id : Nat
  from_agent : AgentName
  to_agent : AgentName
  message_type : MessageType
  payload : Payload
  status : MessageStatus
  error_message : Option String
  created_at : Nat
  updated_at : Nat
deriving DecidableEq, Repr

/-- The `agent_messages` table plus the id generator the database supplies. -/
structure Store where
  messages : List Message
  nextId : Nat
deriving DecidableEq, Repr

/-- Well-formedness the database guarantees: primary-key uniqueness and
freshness of generated ids. -/
def Store.WF (s : Store) : Prop :=
  (s.messages.map (·.id)).Nodup ∧ ∀ m ∈ s.messages, m.id < s.nextId

/-- Status of the row with a given id, if present. -/
def Store.statusOf (s : Store) (msgId : Nat) : Option MessageStatus :=
  (s.messages.find? (fun m => m.id == msgId)).map (·.status)

/-! ## Zod enum parsers (src/unnamed/part_014)

`z.enum([...]).parse` accepts exactly the listed strings; anything else is
a `ValidationError`. -/

/-- `AgentName` enum membership check. -/
def AgentName.parseName : String → Option AgentName
  | "master" => some .master
  | "scout" => some .scout
  | "content_creator" => some .content_creator
  | "assessment" => some .assessment
  | "learning" => some .learning
  | "chat_ui" => some .chat_ui
  | _ => none

/-- `MessageType` enum membership check. -/
def MessageType.parseName : String → Option MessageType
  | "UserMessage" => some .UserMessage
  | "JobDispatch" => some .JobDispatch
  | "SkillMapReady" => some .SkillMapReady
  | "ContentReady" => some .ContentReady
  | "AssessmentResult" => some .AssessmentResult
  | "GapSignal" => some .GapSignal
  | "SessionUpdate" => some .SessionUpdate
  | "AssessmentTrigger" => some .AssessmentTrigger
  | "ProgressUpdate" => some .ProgressUpdate
  | _ => none

/-- `MessageStatus` enum membership check. -/
def MessageStatus.parseName : String → Option MessageStatus
  | "pending" => some .pending
  | "processing" => some .processing
  | "done" => some .done
  | "failed" => some .failed
  | _ => none

/-- `Intent` enum membership check. -/
def Intent.parseName : String → Option Intent
  | "research" => some .research
  | "create_content" => some .create_content
  | "assess" => some .assess
  | "learn" => some .learn
  | "unknown" => some .unknown
  | _ => none

/-- `Depth` enum membership check. -/
def Depth.parseName : String → Option Depth
  | "beginner" => some .beginner
  | "intermediate" => some .intermediate
  | "advanced" => some .advanced
  | _ => none

/-! ## The Context Bus client (src/agents/scout/index.ts, second document) -/

/-- The raw argument of `dispatchMessage` before zod validation: the
`AgentMessageInsert` wire shape (enums still strings, status optional). -/
structure RawInsert where
  from_agent : String
  to_agent : String
  message_type : String
  payload : Payload
  status : Option String
deriving DecidableEq, Repr

/-- The result of `AgentMessageInsertSchema.parse` (src/unnamed/part_014
lines 233-240): enums decoded, `status` defaulted to `pending` when absent.
The payload itself is only required to be a JSON object
(`z.record(z.unknown())`); no per-type schema is applied here. -/
structure ValidatedInsert where
  from_agent : AgentName
  to_agent : AgentName
  message_type : MessageType
  payload : Payload
  status : MessageStatus
deriving DecidableEq, Repr

/-- `AgentMessageInsertSchema.parse`: a `ValidationError` (modelled as
`Except.error`) when `from_agent` / `to_agent` / `message_type` / `status`
are outside their enumerations. -/
def agentMessageInsertParse (r : RawInsert) : Except String ValidatedInsert :=
  match AgentName.parseName r.from_agent with
  | none => .error ("ValidationError: from_agent " ++ r.from_agent)
  | some fa =>
    match AgentName.parseName r.to_agent with
    | none => .error ("ValidationError: to_agent " ++ r.to_agent)
    | some ta =>
      match MessageType.parseName r.message_type with
      | none => .error ("ValidationError: message_type " ++ r.message_type)
      | some mt =>
        match r.status with
        | none =>
            .ok ⟨fa, ta, mt, r.payload, .pending⟩
        | some st =>
          match MessageStatus.parseName st with
          | none => .error ("ValidationError: status " ++ st)
          | some stv => .ok ⟨fa, ta, mt, r.payload, stv⟩

/-- `dispatchMessage` (src/agents/scout/index.ts lines 57-74): validate the
insert with `AgentMessageInsertSchema`, insert the row (the database
generates `id`, `created_at`, `updated_at`), return the stored record.
A failed parse throws before any insert. -/
def dispatchMessage (now : Nat) (s : Store) (r : RawInsert) :
    Except String (Store × Message) :=
  match agentMessageInsertParse r with
  | .error e => .error e
  | .ok v =>
      let m : Message :=
        { id := s.nextId, from_agent := v.from_agent, to_agent := v.to_agent,
          message_type := v.message_type, payload := v.payload,
          status := v.status, error_message := none,
          created_at := now, updated_at := now }
      .ok ({ messages := s.messages ++ [m], nextId := s.nextId + 1 }, m)

/-- The comparison `pollMessages` orders by: `created_at` ascending. -/
def createdLE (a b : Message) : Prop := a.created_at ≤ b.created_at

instance : DecidableRel createdLE := fun _ _ => Nat.decLe _ _

instance : IsTotal Message createdLE := ⟨fun _ _ => Nat.le_total _ _⟩

instance : IsTrans Message createdLE := ⟨fun _ _ _ h h' => Nat.le_trans h h'⟩

/-- `pollMessages` (src/agents/scout/index.ts lines 80-99): select rows with
`to_agent = toAgent` and `status = 'pending'`, ordered by `created_at`
ascending, limited to `limit` rows.  A pure read. -/
def pollMessages (s : Store) (toAgent : AgentName) (limit : Nat) : List Message :=
  (List.insertionSort createdLE
    (s.messages.filter
      (fun m => decide (m.to_agent = toAgent ∧ m.status = .pending)))).take limit

/-- The row transformation of `claimMessage`: move to `processing` exactly
when this is the claimed row and it is still `pending`. -/
def claimUpd (now msgId : Nat) (x : Message) : Message :=
  if x.id = msgId ∧ x.status = .pending
  then { x with status := .processing, updated_at := now } else x

/-- `claimMessage` (src/agents/scout/index.ts lines 105-124): one atomic
conditional write, `UPDATE agent_messages SET status='processing',
updated_at=now WHERE id = msgId AND status = 'pending'`, returning the
updated row; zero rows matched (PGRST116) is returned as `none`, not an
error. -/
def claimMessage (now : Nat) (s : Store) (msgId : Nat) : Store × Option Message :=
  match s.messages.find? (fun m => decide (m.id = msgId ∧ m.status = .pending)) with
  | none => (s, none)
  | some m =>
      ({ s with messages := s.messages.map (claimUpd now msgId) },
       some { m with status := .processing, updated_at := now })

/-- `updateMessageStatus` (src/agents/scout/index.ts lines 159-173): an
unconditional write, `UPDATE ... SET status, updated_at WHERE id = msgId`
with no condition on the current status. -/
def updateMessageStatus (now : Nat) (s : Store) (msgId : Nat)
    (status : MessageStatus) : Store :=
  { s with messages := s.messages.map (fun m =>
      if m.id = msgId then { m with status := status, updated_at := now } else m) }

/-- `completeMessage` (src/agents/scout/index.ts lines 129-131). -/
def completeMessage (now : Nat) (s : Store) (msgId : Nat) : Store :=
  updateMessageStatus now s msgId .done

/-- `failMessage` (src/agents/scout/index.ts lines 136-154): unconditional
write of `status='failed'` and the error text, `WHERE id = msgId` only. -/
def failMessage (now : Nat) (s : Store) (msgId : Nat) (err : String) : Store :=
  { s with messages := s.messages.map (fun m =>
      if m.id = msgId
      then { m with status := .failed, error_message := some err, updated_at := now }
      else m) }

/-! ## Serialized bus histories

Each bus-client operation is a single conditional (or unconditional)
single-row write, so any concurrent interleaving of bus operations is a
serialization: a list of operations applied in sequence. -/

/-- One bus-client operation (`poll` is read-only; a `dispatch` whose
validation fails performs no insert). -/
inductive BusOp where
  | dispatchOp (now : Nat) (r : RawInsert)
  | pollOp (agent : AgentName) (limit : Nat)
  | claimOp (now : Nat) (msgId : Nat)
  | completeOp (now : Nat) (msgId : Nat)
  | failOp (now : Nat) (msgId : Nat) (err : String)

/-- Effect of one bus operation on the store. -/
def applyOp (s : Store) : BusOp → Store
  | .dispatchOp now r =>
      match dispatchMessage now s r with
      | .ok (s', _) => s'
      | .error _ => s
  | .pollOp _ _ => s
  | .claimOp now msgId => (claimMessage now s msgId).1
  | .completeOp now msgId => completeMessage now s msgId
  | .failOp now msgId err => failMessage now s msgId err

/-- Effect of a serialized history of bus operations. -/
def applyOps (s : Store) (ops : List BusOp) : Store :=
  ops.foldl applyOp s

/-- `N` concurrent claim attempts on one message: since each claim is one
atomic conditional write, every interleaving serializes to a sequence of
`claimMessage` steps (one timestamp per claimant). -/
def runClaims (msgId : Nat) : List Nat → Store → Store × List (Option Message)
  | [], s => (s, [])
  | t :: ts, s =>
      let p := claimMessage t s msgId
      let rest := runClaims msgId ts p.1
      (rest.1, p.2 :: rest.2)

/-! ## The shared worker skeleton

Every worker handler has the same shape (src/agents/scout/research.ts
lines 305-401, src/unnamed/part_012 lines 184-286, src/agents/learning/index.ts
`handleMessage`): claim; if the claim returned null, return immediately;
otherwise run the task body inside a try whose catch records
`failMessage(msg.id, errorMessage)` and re-throws.  The body (which ends
with `completeMessage` on success) is the parameter. -/
def runWorker (nowClaim nowFail : Nat) (s : Store) (msgId : Nat)
    (body : Store → Store × Except String Unit) : Store × Except String Unit :=
  match claimMessage nowClaim s msgId with
  | (_, none) => (s, .ok ())
  | (s₁, some _) =>
      match body s₁ with
      | (s₂, .ok ()) => (s₂, .ok ())
      | (s₂, .error e) => (failMessage nowFail s₂ msgId e, .error e)

/-! ## The JobDispatch payload schema (src/unnamed/part_014 lines 259-268) -/

/-- Hexadecimal digit test used by the uuid format check. -/
def isHexDigit (c : Char) : Bool :=
  c.isDigit || ("abcdefABCDEF".toList.contains c)

/-- The shape `z.string().uuid()` enforces: 36 characters, hyphens at
positions 8, 13, 18 and 23, hexadecimal digits elsewhere.  (The stock zod
format check also constrains the version and variant digits; no claim
below depends on that refinement.) -/
def isUuid (s : String) : Bool :=
  s.toList.length = 36 &&
  s.toList.enum.all (fun p =>
    if p.1 = 8 ∨ p.1 = 13 ∨ p.1 = 18 ∨ p.1 = 23
    then p.2 = '-' else isHexDigit p.2)

/-- Decoded `JobDispatchPayloadSchema` value. -/
structure JobDispatchPayload where
  intent : Intent
  topic : Option String
  topic_id : Option String
  user_id : String
  depth : Option Depth
  content_item_id : Option String
  raw_input : String
deriving DecidableEq, Repr

/-- An optional string field: absent is fine, present must be a string. -/
def optStrField (p : Payload) (key : String) : Except String (Option String) :=
  match p.lookup key with
  | none => .ok none
  | some (.str s) => .ok (some s)
  | some _ => .error ("ValidationError: " ++ key ++ " must be a string")

/-- `JobDispatchPayloadSchema.parse` (src/unnamed/part_014 lines 259-267):
required `intent` (enum), `user_id` (uuid), `raw_input` (string); optional
`topic` (string), `topic_id` (uuid), `depth` (enum), `content_item_id`
(uuid). -/
def jobDispatchPayloadParse (p : Payload) : Except String JobDispatchPayload :=
  match p.lookup "intent" with
  | some (.str si) =>
    match Intent.parseName si with
    | none => .error ("ValidationError: intent " ++ si)
    | some intent =>
      match optStrField p "topic" with
      | .error e => .error e
      | .ok topic =>
        match optStrField p "topic_id" with
        | .error e => .error e
        | .ok topicId =>
          if topicId.all isUuid then
            match p.lookup "user_id" with
            | some (.str uid) =>
              if isUuid uid then
                match optStrField p "depth" with
                | .error e => .error e
                | .ok depthStr =>
                  match depthStr.mapM Depth.parseName with
                  | none => .error "ValidationError: depth"
                  | some depth =>
                    match optStrField p "content_item_id" with
                    | .error e => .error e
                    | .ok cid =>
                      if cid.all isUuid then
                        match p.lookup "raw_input" with
                        | some (.str raw) =>
                            .ok ⟨intent, topic, topicId, uid, depth, cid, raw⟩
                        | _ => .error "ValidationError: raw_input required"
                      else .error "ValidationError: content_item_id must be a uuid"
              else .error "ValidationError: user_id must be a uuid"
            | _ => .error "ValidationError: user_id required"
          else .error "ValidationError: topic_id must be a uuid"
  | _ => .error "ValidationError: intent required"

/-- The default-topic computation shared verbatim by the scout
(src/agents/scout/research.ts line 312), assessment (src/unnamed/part_012
line 190), learning (src/agents/learning/index.ts line 55) and content
creator handlers: `const topic = payload.topic ?? "Agentic AI"`. -/
def handlerTopic (payload : JobDispatchPayload) : String :=
  payload.topic.getD "Agentic AI"

/-! ## Wire serializers (the string each enum value is stored as) -/

/-- Wire name of an agent. -/
def AgentName.name : AgentName → String
  | .master => "master"
  | .scout => "scout"
  | .content_creator => "content_creator"
  | .assessment => "assessment"
  | .learning => "learning"
  | .chat_ui => "chat_ui"

/-- Wire name of an intent. -/
def Intent.name : Intent → String
  | .research => "research"
  | .create_content => "create_content"
  | .assess => "assess"
  | .learn => "learn"
  | .unknown => "unknown"

/-- Wire name of an outcome. -/
def Outcome.name : Outcome → String
  | .PASS => "PASS"
  | .PARTIAL => "PARTIAL"
  | .FAIL => "FAIL"

/-- Wire name of a recommendation. -/
def Recommendation.name : Recommendation → String
  | .advance => "advance"
  | .needs_remediation => "needs_remediation"
  | .needs_review => "needs_review"

/-! ## The Master Agent router (src/agents/master/index.ts) -/

/-- The ephemeral classification result produced by the external
`classifyIntent` capability (`LLMIntentClassificationSchema`). -/
structure Classification where
  intent : Intent
  topic : Option String
  confidence : Rat
deriving DecidableEq, Repr

/-- The static intent-to-agent routing table, src/agents/master/index.ts
lines 14-19; `INTENT_TO_AGENT[intent] ?? null` is the lookup, so an intent
absent from the table (only `unknown`) routes nowhere. -/
def INTENT_TO_AGENT : Intent → Option AgentName
  | .research => some .scout
  | .create_content => some .content_creator
  | .assess => some .assessment
  | .learn => some .learning
  | .unknown => none

/-- `MasterAgentResult`, src/agents/master/index.ts lines 26-33. -/
structure MasterAgentResult where
  intent : Intent
  topic : Option String
  confidence : Rat
  dispatchedTo : Option AgentName
  agentMessageId : Option Nat
  response : String
deriving DecidableEq, Repr

/-- The audit row written to `master_agent_log`,
src/agents/master/index.ts lines 99-107. -/
structure MasterLogRow where
  user_id : String
  raw_input : String
  intent : Intent
  dispatched_to : Option AgentName
  response : String
  agent_message_id : Option Nat
  duration_ms : Nat
deriving DecidableEq, Repr

/-- `buildResponse`, src/agents/master/index.ts lines 122-143. -/
def buildResponse (intent : Intent) (topic : Option String)
    (targetAgent : Option AgentName) : String :=
  let topicLabel := topic.getD "your topic"
  match intent with
  | .research =>
      "I\x27ll research the latest skills and trends for \"" ++ topicLabel ++
      "\". The Scout Agent is on it."
  | .create_content =>
      "I\x27m generating learning content for \"" ++ topicLabel ++
      "\". The Content Creator is working on it."
  | .assess =>
      "Let\x27s test your knowledge on \"" ++ topicLabel ++
      "\". The Assessment Agent is preparing your quiz."
  | .learn =>
      "I\x27ll check your learning path and recommend next steps for \"" ++
      topicLabel ++ "\". The Learning Agent is reviewing your progress."
  | .unknown =>
      "I\x27m not sure what you\x27d like to do. Try asking me to research a topic, " ++
      "create learning content, take a quiz, or review your learning progress."

/-- The JobDispatch payload object the router dispatches
(src/agents/master/index.ts lines 75-81); JSON keys whose value is
`undefined` are dropped on the wire. -/
def jobDispatchPayloadJson (intent : Intent) (topic : Option String)
    (topicId : Option String) (userId rawInput : String) : Payload :=
  [("intent", .str intent.name)] ++
  (match topic with | some t => [("topic", JsonVal.str t)] | none => []) ++
  (match topicId with | some t => [("topic_id", JsonVal.str t)] | none => []) ++
  [("user_id", .str userId), ("raw_input", .str rawInput)]

/-- `handleUserMessage` (src/agents/master/index.ts lines 44-117), with the
two external collaborators passed as values: `classification` is the result
of the `classifyIntent` capability (its failure propagates before this
point), `topicLookup` the result of the `topics` table lookup.  A thrown
dispatch error propagates (`Except.error`); on success the new store, the
`MasterAgentResult` and the audit row are returned. -/
def handleUserMessage (now durationMs : Nat) (s : Store)
    (userId rawMessage : String) (classification : Classification)
    (topicLookup : Option String) :
    Except String (Store × MasterAgentResult × MasterLogRow) :=
  let topicId : Option String :=
    match classification.topic with
    | some t => if t = "" then none else topicLookup
    | none => none
  let targetAgent := INTENT_TO_AGENT classification.intent
  let response := buildResponse classification.intent classification.topic targetAgent
  match targetAgent with
  | none =>
      .ok (s,
        ⟨classification.intent, classification.topic, classification.confidence,
          none, none, response⟩,
        ⟨userId, rawMessage, classification.intent, none, response, none, durationMs⟩)
  | some agent =>
      match dispatchMessage now s
        { from_agent := "master", to_agent := agent.name,
          message_type := "JobDispatch",
          payload := jobDispatchPayloadJson classification.intent
            classification.topic topicId userId rawMessage,
          status := some "pending" } with
      | .error e => .error e
      | .ok (s', m) =>
          .ok (s',
            ⟨classification.intent, classification.topic, classification.confidence,
              some agent, some m.id, response⟩,
            ⟨userId, rawMessage, classification.intent, some agent, response,
              some m.id, durationMs⟩)

/-! ## The research pipeline (src/agents/scout/research.ts) -/

/-- One Tavily search result entry. -/
structure TavilyItem where
  title : String
  content : String
  url : String
deriving DecidableEq, Repr

/-- Outcome of the Tavily HTTP round trip: `!res.ok` with its status, or a
parsed body `{answer?, results?}` (absent `results` modelled as `[]`). -/
inductive TavilyHttp where
  | failure (status : Nat)
  | success (answer : Option String) (results : List TavilyItem)
deriving DecidableEq, Repr

/-- Outcome of the Perplexity HTTP round trip: `!res.ok` with its status,
or `data.choices?.[0]?.message?.content` (possibly absent). -/
inductive PerplexityHttp where
  | failure (status : Nat)
  | success (content : Option String)
deriving DecidableEq, Repr

/-- The unavailable marker of src/agents/scout/research.ts line 16. -/
def tavilyUnavailableMarker : String := "[Tavily unavailable — no API key]"

/-- The unavailable marker of src/agents/scout/research.ts line 56. -/
def perplexityUnavailableMarker : String := "[Perplexity unavailable — no API key]"

/-- `searchTavily` (src/agents/scout/research.ts lines 13-47): no API key
or a non-ok response yield marker strings, a body is flattened into
`Answer: ...` plus snippets (JavaScript truthiness: an empty `answer` or
empty snippets fall through). -/
def searchTavily (apiKey : Option String) (http : TavilyHttp) : String :=
  match apiKey with
  | none => tavilyUnavailableMarker
  | some _ =>
    match http with
    | .failure status => "[Tavily error: " ++ toString status ++ "]"
    | .success answer results =>
      let snippets := String.intercalate "\n"
        (results.map (fun r => "- " ++ r.title ++ ": " ++ r.content))
      let noAnswer := if snippets = "" then "[No results]" else snippets
      match answer with
      | some a =>
          if a = "" then noAnswer
          else "Answer: " ++ a ++ "\n\nSources:\n" ++ snippets
      | none => noAnswer

/-- `searchPerplexity` (src/agents/scout/research.ts lines 53-86). -/
def searchPerplexity (apiKey : Option String) (http : PerplexityHttp) : String :=
  match apiKey with
  | none => perplexityUnavailableMarker
  | some _ =>
    match http with
    | .failure status => "[Perplexity error: " ++ toString status ++ "]"
    | .success content => content.getD "[No Perplexity response]"

/-- `SkillEntrySchema`, src/unnamed/part_014 lines 129-133. -/
structure SkillEntry where
  skill : String
  demand_score : Rat
  level : Depth
deriving DecidableEq, Repr

/-- `LLMSkillMapOutputSchema`, src/unnamed/part_014 lines 292-296. -/
structure LLMSkillMapOutput where
  topic : String
  skills : List SkillEntry
  summary : Option String
deriving DecidableEq, Repr

/-- External collaborators of the research pipeline: the two API keys, the
two HTTP round trips, and `synthesizeSkillMap` (Claude call + zod
validation, either of which can fail). -/
structure ResearchEnv where
  tavilyApiKey : Option String
  perplexityApiKey : Option String
  tavilyHttp : String → TavilyHttp
  perplexityHttp : String → PerplexityHttp
  synthesize : String → String → Except String LLMSkillMapOutput

/-- The `combinedResearch` string of src/agents/scout/research.ts
lines 159-165. -/
def combinedResearch (tavilyResults perplexityResults : String) : String :=
  String.intercalate "\n"
    ["=== Web Search (Tavily) ===", tavilyResults, "",
     "=== AI Research (Perplexity) ===", perplexityResults]

/-- `researchTopic` (src/agents/scout/research.ts lines 150-169): run both
searches, join the texts, synthesize.  Note: the source has no check on
the search results before synthesis — marker strings flow straight into
`combinedResearch`. -/
def researchTopic (env : ResearchEnv) (topic : String) :
    Except String LLMSkillMapOutput :=
  let tavilyResults := searchTavily env.tavilyApiKey
    (env.tavilyHttp (topic ++ " skills in demand for banking professionals 2026"))
  let perplexityResults := searchPerplexity env.perplexityApiKey
    (env.perplexityHttp ("What are the most important " ++ topic ++
      " skills for banking and financial services professionals in 2026?"))
  env.synthesize topic (combinedResearch tavilyResults perplexityResults)

/-! ## The assessment scorer

Modelled from the spec: the scorer implementation (`scoreMCQ`,
`determineOutcome`, `determineRecommendation` of the assessment agent's
`scorer.ts`) is missing from src — src/agents/assessment/scorer.ts holds
only a placeholder stub and src/unnamed/part_012 (first document) its unit
tests.  The definitions below follow the spec's words (§4.3 *Scoring*):
exact-match grading, `score = correctCount / totalQuestions` with the
empty case defined as 0, thresholds 0.8 and 0.5, and the fixed
outcome-to-recommendation table. -/

/-- `QuestionSchema`, src/unnamed/part_014 lines 148-153. -/
structure Question where
  q : String
  options : List String
  answer : String
  explanation : String
deriving DecidableEq, Repr

/-- Modelled from the spec: exact-match grading of multiple-choice
answers; `score = correctCount / totalQuestions`, defined as 0 when there
are no questions. -/
def scoreMCQ (userAnswers : List String) (questions : List Question) :
    List AnswerRecord × Rat :=
  let answers := (userAnswers.zip questions).enum.map
    (fun p => AnswerRecord.mk p.1 p.2.1 (p.2.1 == p.2.2.answer))
  let correctCount := answers.countP (·.correct)
  let score : Rat :=
    if questions.length = 0 then 0
    else (correctCount : Rat) / (questions.length : Rat)
  (answers, score)

/-- Modelled from the spec: `score ≥ 0.8 → PASS`,
`0.5 ≤ score < 0.8 → PARTIAL`, `score < 0.5 → FAIL`. -/
def determineOutcome (score : Rat) : Outcome :=
  if (8 : Rat) / 10 ≤ score then .PASS
  else if (5 : Rat) / 10 ≤ score then .PARTIAL
  else .FAIL

/-- Modelled from the spec: the fixed outcome-to-recommendation table. -/
def determineRecommendation : Outcome → Recommendation
  | .PASS => .advance
  | .PARTIAL => .needs_review
  | .FAIL => .needs_remediation

/-! ## The assessment worker (src/unnamed/part_012, second document) -/

/-- The `content_items` columns the worker selects (`questions, topic_id`). -/
structure ContentRow where
  questions : List Question
  topic_id : String
deriving Repr

/-- The value `scoreAnswers` resolves with (shape per the worker and its
tests). -/
structure ScoringResult where
  answers : List AnswerRecord
  score : Rat
  outcome : Outcome
  recommendation : Recommendation
  gaps : List String
  feedback : Option String
deriving DecidableEq, Repr

/-- External collaborators of the assessment worker: the `content_items`
lookup, the `scoreAnswers` capability (its rejection propagates), and the
`assessment_results` insert (returning the generated row id). -/
structure AssessmentEnv where
  contentItem : String → Option ContentRow
  scoreAnswers : List String → List Question → String → Except String ScoringResult
  insertAssessmentResult : Except String String

/-- `(msg.payload.user_answers as string[]) ?? []` (src/unnamed/part_012
line 217): an unchecked cast with a nullish default; only the string-array
and absent shapes occur in this repository, and the value is only handed
to the external scorer. -/
def payloadUserAnswers (p : Payload) : List String :=
  match p.lookup "user_answers" with
  | some (.arrStr xs) => xs
  | _ => []

/-- The `AssessmentResult` payload dispatched to master
(src/unnamed/part_012 lines 247-256); an `undefined` `feedback` key is
dropped on the wire. -/
def assessmentResultPayload (userId topic : String) (r : ScoringResult)
    (resultId : String) : Payload :=
  [("user_id", .str userId), ("topic", .str topic), ("score", .num r.score),
   ("outcome", .str r.outcome.name),
   ("recommendation", .str r.recommendation.name),
   ("gaps", .arrStr r.gaps)] ++
  (match r.feedback with | some f => [("feedback", JsonVal.str f)] | none => []) ++
  [("assessment_result_id", .str resultId)]

/-- The `GapSignal` payload dispatched to the learning agent
(src/unnamed/part_012 lines 266-274). -/
def gapSignalPayload (topic : String) (r : ScoringResult)
    (userId resultId : String) : Payload :=
  [("topic", .str topic), ("score", .num r.score),
   ("outcome", .str r.outcome.name), ("gaps", .arrStr r.gaps),
   ("recommendation", .str r.recommendation.name),
   ("user_id", .str userId), ("assessment_result_id", .str resultId)]

/-- The try-block of the assessment worker (src/unnamed/part_012
lines 188-279): parse payload, default the topic, require
`content_item_id`, fetch the content item, score, save, dispatch
`AssessmentResult` to master, dispatch `GapSignal` to learning when
`result.gaps.length > 0`, mark the original message done.  Every thrown
error surfaces as `Except.error`. -/
def assessmentBody (now : Nat) (env : AssessmentEnv) (msg : Message)
    (s : Store) : Store × Except String Unit :=
  match jobDispatchPayloadParse msg.payload with
  | .error e => (s, .error e)
  | .ok payload =>
    let topic := handlerTopic payload
    match payload.content_item_id with
    | none => (s, .error "No content_item_id provided for assessment")
    | some contentItemId =>
      match env.contentItem contentItemId with
      | none => (s, .error ("Content item not found: " ++ contentItemId))
      | some contentItem =>
        let questions := contentItem.questions
        let userAnswers := payloadUserAnswers msg.payload
        match env.scoreAnswers userAnswers questions topic with
        | .error e => (s, .error e)
        | .ok result =>
          match env.insertAssessmentResult with
          | .error e => (s, .error ("Failed to save assessment result: " ++ e))
          | .ok savedId =>
            match dispatchMessage now s
              { from_agent := "assessment", to_agent := "master",
                message_type := "AssessmentResult",
                payload := assessmentResultPayload payload.user_id topic result savedId,
                status := some "pending" } with
            | .error e => (s, .error e)
            | .ok (s₁, _) =>
              let afterGap : Except String Store :=
                if result.gaps.length > 0 then
                  match dispatchMessage now s₁
                    { from_agent := "assessment", to_agent := "learning",
                      message_type := "GapSignal",
                      payload := gapSignalPayload topic result payload.user_id savedId,
                      status := some "pending" } with
                  | .error e => .error e
                  | .ok (s₂, _) => .ok s₂
                else .ok s₁
              match afterGap with
              | .error e => (s₁, .error e)
              | .ok s₂ => (completeMessage now s₂ msg.id, .ok ())

/-- Assessment `handleMessage` (src/unnamed/part_012 lines 184-286):
the shared worker skeleton around `assessmentBody`. -/
def assessmentHandleMessage (nowClaim nowBody nowFail : Nat)
    (env : AssessmentEnv) (s : Store) (msg : Message) :
    Store × Except String Unit :=
  runWorker nowClaim nowFail s msg.id (assessmentBody nowBody env msg)

/-- The routing triple of a message: sender, addressee, kind. -/
def routeOf (m : Message) : AgentName × AgentName × MessageType :=
  (m.from_agent, m.to_agent, m.message_type)

/-! ## Concrete fixtures (used by witnesses and counterexamples) -/

/-- A user uuid (shape of the test fixtures in src/unnamed/part_012). -/
def demoUserId : String := "00000000-0000-0000-0000-000000000002"

/-- A content-item uuid. -/
def demoContentId : String := "00000000-0000-0000-0000-000000000003"

/-- The JobDispatch payload of the end-to-end assessment scenario. -/
def demoAssessPayload : Payload :=
  [("intent", .str "assess"), ("topic", .str "Agentic AI"),
   ("user_id", .str demoUserId), ("content_item_id", .str demoContentId),
   ("raw_input", .str "Quiz me on Agentic AI"),
   ("user_answers", .arrStr ["A", "D"])]

/-- The same payload without the `topic` key. -/
def demoAssessPayloadNoTopic : Payload :=
  [("intent", .str "assess"),
   ("user_id", .str demoUserId), ("content_item_id", .str demoContentId),
   ("raw_input", .str "Quiz me on Agentic AI"),
   ("user_answers", .arrStr ["A", "D"])]

/-- A pending JobDispatch message sitting on the bus. -/
def demoMessage : Message :=
  { id := 0, from_agent := .master, to_agent := .assessment,
    message_type := .JobDispatch, payload := demoAssessPayload,
    status := .pending, error_message := none, created_at := 0, updated_at := 0 }

/-- A one-message store holding `demoMessage`. -/
def demoStore : Store := { messages := [demoMessage], nextId := 1 }

/-- Two questions whose correct answers are A and C (spec §8 scenario). -/
def demoQuestions : List Question :=
  [{ q := "Q1", options := ["A", "B", "C", "D"], answer := "A", explanation := "A" },
   { q := "Q2", options := ["A", "B", "C", "D"], answer := "C", explanation := "C" }]

/-- The scoring result of answering A, D against correct answers A, C. -/
def demoScoring : ScoringResult :=
  { answers := [⟨0, "A", true⟩, ⟨1, "D", false⟩], score := 1 / 2,
    outcome := .PARTIAL, recommendation := .needs_review,
    gaps := ["Advanced concepts"], feedback := some "Review the advanced topics." }

/-- The same scoring result with an empty gap list. -/
def demoScoringNoGaps : ScoringResult :=
  { answers := [⟨0, "A", true⟩, ⟨1, "C", true⟩], score := 1,
    outcome := .PASS, recommendation := .advance, gaps := [], feedback := none }

/-- An assessment environment on the happy path, with gaps. -/
def demoEnv : AssessmentEnv :=
  { contentItem := fun cid =>
      if cid = demoContentId
      then some { questions := demoQuestions, topic_id := "topic-1" } else none,
    scoreAnswers := fun _ _ _ => .ok demoScoring,
    insertAssessmentResult := .ok "00000000-0000-0000-0000-000000000009" }

/-- An assessment environment on the happy path, without gaps. -/
def demoEnvNoGaps : AssessmentEnv :=
  { demoEnv with scoreAnswers := fun _ _ _ => .ok demoScoringNoGaps }

/-- A skill map for the research fixtures. -/
def demoSkillMap : LLMSkillMapOutput :=
  { topic := "Agentic AI",
    skills := [{ skill := "Prompt Engineering", demand_score := 9 / 10,
                 level := .intermediate }],
    summary := some "Skills identified." }

/-- A research environment with no API keys at all: both sources return
their unavailable markers; synthesis itself succeeds. -/
def demoResearchEnvNoKeys : ResearchEnv :=
  { tavilyApiKey := none, perplexityApiKey := none,
    tavilyHttp := fun _ => .failure 500,
    perplexityHttp := fun _ => .failure 500,
    synthesize := fun _ _ => .ok demoSkillMap }

/-- A dispatch input whose enums are valid but whose payload is not a
valid JobDispatch payload and whose status is `processing`. -/
def demoBadInsert : RawInsert :=
  { from_agent := "master", to_agent := "assessment",
    message_type := "JobDispatch", payload := [], status := some "processing" }

/-- The demo store with its message already `done`. -/
def demoDoneStore : Store :=
  { messages := [{ demoMessage with status := .done }], nextId := 1 }

/-- What `demoAssessPayloadNoTopic` parses to. -/
def demoParsedNoTopic : JobDispatchPayload :=
  { intent := .assess, topic := none, topic_id := none, user_id := demoUserId,
    depth := none, content_item_id := some demoContentId,
    raw_input := "Quiz me on Agentic AI" }

/-- What `demoAssessPayload` parses to. -/
def demoParsedAssess : JobDispatchPayload :=
  { intent := .assess, topic := some "Agentic AI", topic_id := none,
    user_id := demoUserId, depth := none,
    content_item_id := some demoContentId,
    raw_input := "Quiz me on Agentic AI" }

/-- The row `demoBadInsert` is stored as when dispatched at time 5 into
`demoStore`. -/
def demoBadMessage : Message :=
  { id := 1, from_agent := .master, to_agent := .assessment,
    message_type := .JobDispatch, payload := [], status := .processing,
    error_message := none, created_at := 5, updated_at := 5 }

/-- A fully valid dispatch input with no explicit status. -/
def demoGoodInsert : RawInsert :=
  { from_agent := "master", to_agent := "scout",
    message_type := "JobDispatch", payload := demoAssessPayload, status := none }

/-- A dispatch input whose `from_agent` is outside the agent enumeration. -/
def demoBadEnumInsert : RawInsert :=
  { from_agent := "nobody", to_agent := "scout",
    message_type := "JobDispatch", payload := [], status := none }

/-! ## Store lemmas -/

/-- `find?` by id commutes with an id-preserving row update. -/
theorem find?_id_map (f : Message → Message) (hf : ∀ m, (f m).id = m.id)
    (l : List Message) (j : Nat) :
    (l.map f).find? (fun m => m.id == j) = (l.find? (fun m => m.id == j)).map f := by
  rw [List.find?_map]
  have hp : ((fun m : Message => m.id == j) ∘ f) = (fun m : Message => m.id == j) := by
    funext m
    simp [Function.comp, hf]
  rw [hp]

/-- `claimUpd` preserves the row id. -/
theorem claimUpd_id (t msgId : Nat) (m : Message) : (claimUpd t msgId m).id = m.id := by
  unfold claimUpd
  split <;> rfl

/-- Status bookkeeping of the conditional claim write. -/
theorem statusOf_map_claimUpd (t msgId j : Nat) (s : Store) :
    (Store.mk (s.messages.map (claimUpd t msgId)) s.nextId).statusOf j =
      (s.statusOf j).map
        (fun st => if j = msgId ∧ st = .pending then .processing else st) := by
  unfold Store.statusOf
  simp only
  rw [find?_id_map (claimUpd t msgId) (claimUpd_id t msgId)]
  cases hfind : s.messages.find? (fun m => m.id == j) with
  | none => rfl
  | some m =>
    have hid : m.id = j := by simpa using List.find?_some hfind
    simp only [Option.map_some']
    unfold claimUpd
    by_cases h1 : j = msgId
    · by_cases h2 : m.status = .pending
      · simp [hid, h1, h2]
      · simp [hid, h1, h2]
    · have hcond : ¬(m.id = msgId ∧ m.status = .pending) := by
        rw [hid]
        exact fun hc => h1 hc.1
      simp [hcond, h1]

/-- Status bookkeeping of the unconditional status write. -/
theorem statusOf_updateMessageStatus (now : Nat) (s : Store) (msgId j : Nat)
    (st : MessageStatus) :
    (updateMessageStatus now s msgId st).statusOf j =
      (s.statusOf j).map (fun old => if j = msgId then st else old) := by
  unfold updateMessageStatus Store.statusOf
  simp only
  rw [find?_id_map _ (fun m => by split <;> rfl)]
  cases hfind : s.messages.find? (fun m => m.id == j) with
  | none => rfl
  | some m =>
    have hid : m.id = j := by simpa using List.find?_some hfind
    by_cases h1 : j = msgId
    · simp [hid, h1]
    · simp [hid, h1]

/-- Status bookkeeping of the unconditional fail write. -/
theorem statusOf_failMessage (now : Nat) (s : Store) (msgId j : Nat) (e : String) :
    (failMessage now s msgId e).statusOf j =
      (s.statusOf j).map (fun old => if j = msgId then .failed else old) := by
  unfold failMessage Store.statusOf
  simp only
  rw [find?_id_map _ (fun m => by split <;> rfl)]
  cases hfind : s.messages.find? (fun m => m.id == j) with
  | none => rfl
  | some m =>
    have hid : m.id = j := by simpa using List.find?_some hfind
    by_cases h1 : j = msgId
    · simp [hid, h1]
    · simp [hid, h1]

/-- With unique ids, a member row is what `find?` by its id returns. -/
theorem find?_id_of_mem {l : List Message} (hn : (l.map (·.id)).Nodup)
    {m : Message} (hm : m ∈ l) {j : Nat} (hj : m.id = j) :
    l.find? (fun x => x.id == j) = some m := by
  induction l with
  | nil => cases hm
  | cons a l ih =>
    rcases List.mem_cons.mp hm with rfl | hm'
    · exact List.find?_cons_of_pos _ (by simp [hj])
    · by_cases ha : a.id = j
      · exfalso
        have hmem : m.id ∈ l.map (·.id) := List.mem_map_of_mem _ hm'
        have : a.id ∉ l.map (·.id) := (List.nodup_cons.mp (by simpa using hn)).1
        rw [ha, ← hj] at this
        exact this hmem
      · rw [List.find?_cons_of_neg _ (by simp [ha])]
        exact ih (List.nodup_cons.mp (by simpa using hn)).2 hm'

/-- A `find?` hit for a weaker predicate is also the hit for a stronger
one, provided the found element satisfies the stronger one. -/
theorem find?_strengthen {α : Type} {p q : α → Bool}
    (himp : ∀ x, q x = true → p x = true) {l : List α} {m : α}
    (hp : l.find? p = some m) (hq : q m = true) : l.find? q = some m := by
  induction l with
  | nil => simp at hp
  | cons a l ih =>
    by_cases hpa : p a = true
    · rw [List.find?_cons_of_pos _ hpa] at hp
      have ham : a = m := by simpa using hp
      subst ham
      exact List.find?_cons_of_pos _ hq
    · have hqa : ¬ q a = true := fun h => hpa (himp a h)
      rw [List.find?_cons_of_neg _ hpa] at hp
      rw [List.find?_cons_of_neg _ hqa]
      exact ih hp

/-- `claimMessage` on a message that is not `pending` (or absent) is a
no-op returning null: zero rows match the conditional write. -/
theorem claimMessage_eq_none (t : Nat) {s : Store} {msgId : Nat} (hwf : s.WF)
    (h : s.statusOf msgId ≠ some .pending) :
    claimMessage t s msgId = (s, none) := by
  unfold claimMessage
  suffices hs :
      s.messages.find? (fun m => decide (m.id = msgId ∧ m.status = .pending)) = none by
    rw [hs]
  rw [List.find?_eq_none]
  intro x hx hpx
  have hprop : x.id = msgId ∧ x.status = .pending := of_decide_eq_true hpx
  apply h
  unfold Store.statusOf
  rw [find?_id_of_mem hwf.1 hx hprop.1, Option.map_some', hprop.2]

/-- `claimMessage` on the pending row found by id: the conditional write
fires and the updated record is returned. -/
theorem claimMessage_eq_some (t : Nat) {s : Store} {msgId : Nat} {m : Message}
    (hfind : s.messages.find? (fun x => x.id == msgId) = some m)
    (hpend : m.status = .pending) :
    claimMessage t s msgId =
      (Store.mk (s.messages.map (claimUpd t msgId)) s.nextId,
       some { m with status := .processing, updated_at := t }) := by
  unfold claimMessage
  have hid : m.id = msgId := by simpa using List.find?_some hfind
  have hstrong :
      s.messages.find? (fun x => decide (x.id = msgId ∧ x.status = .pending)) = some m := by
    refine find?_strengthen (fun x hx => ?_) hfind (by simp [hid, hpend])
    have := of_decide_eq_true hx
    simp [this.1]
  rw [hstrong]

/-- Unfolding of `statusOf` at a pending row. -/
theorem statusOf_some_pending {s : Store} {msgId : Nat}
    (h : s.statusOf msgId = some .pending) :
    ∃ m, s.messages.find? (fun x => x.id == msgId) = some m ∧
      m.status = .pending ∧ m.id = msgId := by
  unfold Store.statusOf at h
  cases hf : s.messages.find? (fun x => x.id == msgId) with
  | none => rw [hf] at h; cases h
  | some m =>
    rw [hf, Option.map_some'] at h
    exact ⟨m, rfl, by injection h, by simpa using List.find?_some hf⟩

/-- An id-preserving row update preserves well-formedness. -/
theorem WF_map_preserving (f : Message → Message) (hf : ∀ m, (f m).id = m.id)
    (s : Store) (h : s.WF) : (Store.mk (s.messages.map f) s.nextId).WF := by
  constructor
  · have hids : (s.messages.map f).map (·.id) = s.messages.map (·.id) := by
      rw [List.map_map]
      exact List.map_congr_left (fun m _ => hf m)
    rw [hids]
    exact h.1
  · intro m hm
    obtain ⟨x, hx, rfl⟩ := List.mem_map.mp hm
    rw [hf]
    exact h.2 x hx

/-- Claiming preserves well-formedness. -/
theorem WF_claimMessage (t : Nat) (s : Store) (msgId : Nat) (h : s.WF) :
    ((claimMessage t s msgId).1).WF := by
  unfold claimMessage
  cases hfind :
      s.messages.find? (fun m => decide (m.id = msgId ∧ m.status = .pending)) with
  | none => exact h
  | some m => exact WF_map_preserving _ (claimUpd_id t msgId) s h

/-- Unconditional status writes preserve well-formedness. -/
theorem WF_updateMessageStatus (now : Nat) (s : Store) (msgId : Nat)
    (st : MessageStatus) (h : s.WF) : (updateMessageStatus now s msgId st).WF :=
  WF_map_preserving _ (fun m => by split <;> rfl) s h

/-- The fail write preserves well-formedness. -/
theorem WF_failMessage (now : Nat) (s : Store) (msgId : Nat) (e : String)
    (h : s.WF) : (failMessage now s msgId e).WF :=
  WF_map_preserving _ (fun m => by split <;> rfl) s h

/-- A successful dispatch preserves well-formedness: the generated id is
fresh. -/
theorem WF_dispatchMessage {now : Nat} {s s' : Store} {r : RawInsert} {m : Message}
    (hd : dispatchMessage now s r = .ok (s', m)) (h : s.WF) : s'.WF := by
  unfold dispatchMessage at hd
  cases hparse : agentMessageInsertParse r with
  | error e => rw [hparse] at hd; cases hd
  | ok v =>
    rw [hparse] at hd
    injection hd with h1
    injection h1 with h2 h3
    subst h2
    constructor
    · rw [List.map_append]
      refine List.Nodup.append h.1 (List.nodup_singleton _) ?_
      intro x hx hx'
      have hxval : x = s.nextId := by simpa using hx'
      obtain ⟨mm, hmm, hmmid⟩ := List.mem_map.mp hx
      have hlt := h.2 mm hmm
      omega
    · intro x hx
      rcases List.mem_append.mp hx with hx' | hx'
      · have := h.2 x hx'
        exact Nat.lt_succ_of_lt this
      · have hxeq := List.mem_singleton.mp hx'
        subst hxeq
        exact Nat.lt_succ_self _

/-- Claims on a message that is no longer `pending` are all no-ops. -/
theorem runClaims_of_not_pending {msgId : Nat} (ts : List Nat) {s : Store}
    (hwf : s.WF) (h : s.statusOf msgId ≠ some .pending) :
    runClaims msgId ts s = (s, ts.map (fun _ => none)) := by
  induction ts with
  | nil => rfl
  | cons t ts ih =>
    show runClaims msgId (t :: ts) s = _
    unfold runClaims
    rw [claimMessage_eq_none t hwf h]
    simp only [ih, List.map_cons]

/-- The first serialized claim on a pending message wins; each later one
observes a no-op. -/
theorem runClaims_pending {msgId : Nat} (t : Nat) (ts : List Nat) {s : Store}
    (hwf : s.WF) (h : s.statusOf msgId = some .pending) :
    ∃ m', (runClaims msgId (t :: ts) s).2 = some m' :: ts.map (fun _ => none) ∧
      m'.id = msgId ∧ m'.status = .processing ∧
      (runClaims msgId (t :: ts) s).1.statusOf msgId = some .processing := by
  obtain ⟨m, hfind, hpend, hid⟩ := statusOf_some_pending h
  have hclaim := claimMessage_eq_some t hfind hpend
  have hwf₁ : (Store.mk (s.messages.map (claimUpd t msgId)) s.nextId).WF :=
    WF_map_preserving _ (claimUpd_id t msgId) s hwf
  have hst₁ : (Store.mk (s.messages.map (claimUpd t msgId)) s.nextId).statusOf msgId =
      some .processing := by
    rw [statusOf_map_claimUpd, h]
    simp
  refine ⟨{ m with status := .processing, updated_at := t }, ?_, hid, rfl, ?_⟩
  · unfold runClaims
    rw [hclaim]
    simp only [runClaims_of_not_pending ts hwf₁ (by rw [hst₁]; simp)]
  · unfold runClaims
    rw [hclaim]
    simp only [runClaims_of_not_pending ts hwf₁ (by rw [hst₁]; simp)]
    exact hst₁

/-! ## C1 -/

/-- C1: for every message and every serialized interleaving of N
concurrent claim attempts on it, exactly one attempt succeeds (observes
the transition `pending → processing` and receives the updated record)
and the other N−1 observe a no-op (`none`), never a partial transition;
and `claimMessage` updates the status only when it is still `pending` at
update time — a single atomic conditional write (condition and write are
one `claimMessage` step), never a separate read followed by a write. -/
theorem claim_exclusivity (ts : List Nat) (s : Store) (msgId : Nat)
    (hwf : s.WF) (hpend : s.statusOf msgId = some .pending) (hne : ts ≠ []) :
    ((runClaims msgId ts s).2.countP (fun r => r.isSome) = 1) ∧
    ((runClaims msgId ts s).2.countP (fun r => r.isNone) = ts.length - 1) ∧
    ((runClaims msgId ts s).1.statusOf msgId = some .processing) ∧
    (∀ r ∈ (runClaims msgId ts s).2, ∀ m, r = some m →
        m.id = msgId ∧ m.status = .processing) ∧
    (∀ (t : Nat) (s₂ : Store), s₂.WF → s₂.statusOf msgId ≠ some .pending →
        claimMessage t s₂ msgId = (s₂, none)) := by
  cases ts with
  | nil => exact absurd rfl hne
  | cons t ts' =>
    obtain ⟨m', hres, hid, hstat, hfinal⟩ := runClaims_pending t ts' hwf hpend
    refine ⟨?_, ?_, hfinal, ?_, fun t₂ s₂ hwf₂ h₂ => claimMessage_eq_none t₂ hwf₂ h₂⟩
    · rw [hres]
      simp [List.countP_cons, List.countP_map, Function.comp, List.countP_eq_length]
    · rw [hres]
      have hrep : ∀ n : Nat,
          List.countP (fun r : Option Message => r.isNone) (List.replicate n none) = n := by
        intro n
        induction n with
        | zero => rfl
        | succ k ih => simp [List.replicate_succ, List.countP_cons, ih]
      simp [List.countP_cons, hrep]
    · rw [hres]
      intro r hr m hm
      rcases List.mem_cons.mp hr with rfl | hr'
      · injection hm with hm'
        subst hm'
        exact ⟨hid, hstat⟩
      · obtain ⟨-, -, rfl⟩ := List.mem_map.mp hr'
        cases hm

/-- C1 witness: three concurrent claims on the pending demo message. -/
theorem claim_exclusivity_witness :
    demoStore.WF ∧ demoStore.statusOf 0 = some .pending ∧
    ((runClaims 0 [1, 2, 3] demoStore).2.countP (fun r => r.isSome) = 1) ∧
    ((runClaims 0 [1, 2, 3] demoStore).2.countP (fun r => r.isNone) = 2) ∧
    ((runClaims 0 [1, 2, 3] demoStore).1.statusOf 0 = some .processing) := by
  have h := claim_exclusivity [1, 2, 3] demoStore 0
    (by constructor <;> decide) (by decide) (by decide)
  exact ⟨by constructor <;> decide, by decide, h.1, h.2.1, h.2.2.1⟩

/-! ## C2 -/

/-- Appending rows does not change the status of an existing row. -/
theorem statusOf_append_right {s : Store} {msgId : Nat} (l₂ : List Message)
    (n : Nat) (h : (s.statusOf msgId).isSome) :
    (Store.mk (s.messages ++ l₂) n).statusOf msgId = s.statusOf msgId := by
  unfold Store.statusOf at *
  simp only
  rw [List.find?_append]
  cases hf : s.messages.find? (fun m => m.id == msgId) with
  | none => rw [hf] at h; cases h
  | some m => simp [Option.or]

/-- Every bus operation preserves well-formedness. -/
theorem WF_applyOp (s : Store) (op : BusOp) (h : s.WF) : (applyOp s op).WF := by
  cases op with
  | dispatchOp now r =>
    show (match dispatchMessage now s r with
          | .ok (s', _) => s' | .error _ => s).WF
    cases hd : dispatchMessage now s r with
    | error e => exact h
    | ok p =>
      obtain ⟨s', m⟩ := p
      exact WF_dispatchMessage hd h
  | pollOp a k => exact h
  | claimOp now msgId => exact WF_claimMessage now s msgId h
  | completeOp now msgId => exact WF_updateMessageStatus now s msgId .done h
  | failOp now msgId e => exact WF_failMessage now s msgId e h

/-- One bus operation moves the status of an existing row along the step
relation: unchanged, `pending → processing` (claim), to `done` (complete)
or to `failed` (fail). -/
theorem statusOf_applyOp_step {s : Store} {msgId : Nat} {st : MessageStatus}
    (h : s.statusOf msgId = some st) (op : BusOp) :
    ∃ st', (applyOp s op).statusOf msgId = some st' ∧
      (st' = st ∨ (st = .pending ∧ st' = .processing) ∨
        st' = .done ∨ st' = .failed) := by
  cases op with
  | dispatchOp now r =>
    show ∃ st', (match dispatchMessage now s r with
          | .ok (s', _) => s' | .error _ => s).statusOf msgId = some st' ∧ _
    cases hparse : agentMessageInsertParse r with
    | error e =>
      refine ⟨st, ?_, Or.inl rfl⟩
      simp only [dispatchMessage, hparse]
      exact h
    | ok v =>
      refine ⟨st, ?_, Or.inl rfl⟩
      simp only [dispatchMessage, hparse]
      rw [statusOf_append_right _ _ (by rw [h]; rfl)]
      exact h
  | pollOp a k => exact ⟨st, h, Or.inl rfl⟩
  | claimOp now msgId₂ =>
    show ∃ st', ((claimMessage now s msgId₂).1).statusOf msgId = some st' ∧ _
    unfold claimMessage
    cases hfind : s.messages.find?
        (fun m => decide (m.id = msgId₂ ∧ m.status = .pending)) with
    | none => exact ⟨st, h, Or.inl rfl⟩
    | some m =>
      simp only
      rw [statusOf_map_claimUpd, h, Option.map_some']
      by_cases hc : msgId = msgId₂ ∧ st = .pending
      · exact ⟨.processing, by rw [if_pos hc], Or.inr (Or.inl ⟨hc.2, rfl⟩)⟩
      · exact ⟨st, by rw [if_neg hc], Or.inl rfl⟩
  | completeOp now msgId₂ =>
    show ∃ st', (completeMessage now s msgId₂).statusOf msgId = some st' ∧ _
    unfold completeMessage
    rw [statusOf_updateMessageStatus, h, Option.map_some']
    by_cases hc : msgId = msgId₂
    · exact ⟨.done, by rw [if_pos hc], Or.inr (Or.inr (Or.inl rfl))⟩
    · exact ⟨st, by rw [if_neg hc], Or.inl rfl⟩
  | failOp now msgId₂ e =>
    show ∃ st', (failMessage now s msgId₂ e).statusOf msgId = some st' ∧ _
    rw [statusOf_failMessage, h, Option.map_some']
    by_cases hc : msgId = msgId₂
    · exact ⟨.failed, by rw [if_pos hc], Or.inr (Or.inr (Or.inr rfl))⟩
    · exact ⟨st, by rw [if_neg hc], Or.inl rfl⟩

/-- Once `done` or `failed`, the status stays in `{done, failed}` along
any history. -/
theorem statusOf_applyOps_terminal {msgId : Nat} (ops : List BusOp) {s : Store}
    (h : s.statusOf msgId = some .done ∨ s.statusOf msgId = some .failed) :
    (applyOps s ops).statusOf msgId = some .done ∨
      (applyOps s ops).statusOf msgId = some .failed := by
  induction ops generalizing s with
  | nil => exact h
  | cons op ops ih =>
    show ((op :: ops).foldl applyOp s).statusOf msgId = _ ∨ _
    rw [List.foldl_cons]
    apply ih
    rcases h with h | h
    · obtain ⟨st', hst', hcase⟩ := statusOf_applyOp_step h op
      rcases hcase with rfl | ⟨hp, -⟩ | rfl | rfl
      · exact Or.inl hst'
      · cases hp
      · exact Or.inl hst'
      · exact Or.inr hst'
    · obtain ⟨st', hst', hcase⟩ := statusOf_applyOp_step h op
      rcases hcase with rfl | ⟨hp, -⟩ | rfl | rfl
      · exact Or.inr hst'
      · cases hp
      · exact Or.inl hst'
      · exact Or.inr hst'

/-- A message that has left `pending` never re-enters it along any
history. -/
theorem statusOf_applyOps_never_pending {msgId : Nat} (ops : List BusOp)
    {s : Store} {st : MessageStatus} (h : s.statusOf msgId = some st)
    (hst : st ≠ .pending) :
    ∃ st', (applyOps s ops).statusOf msgId = some st' ∧ st' ≠ .pending := by
  induction ops generalizing s st with
  | nil => exact ⟨st, h, hst⟩
  | cons op ops ih =>
    show ∃ st', (((op :: ops).foldl applyOp s).statusOf msgId = some st') ∧ _
    rw [List.foldl_cons]
    obtain ⟨st', hst', hcase⟩ := statusOf_applyOp_step h op
    rcases hcase with rfl | ⟨hp, -⟩ | rfl | rfl
    · exact ih hst' hst
    · exact absurd hp hst
    · exact ih hst' (by simp)
    · exact ih hst' (by simp)

/-- C2 (amended): along any serialized history of bus-client operations,
a message never transitions `done → pending`, `failed → pending` or
`done → processing`: once its status has left `pending` it is never
`pending` again, and once `done` or `failed` it stays in `{done, failed}`
(so it is never `pending` or `processing` again).  However `done` and
`failed` are not immutable — `completeMessage` and `failMessage` write
unconditionally, so `failed → done` and `done → failed` do occur (see the
counterexample). -/
theorem lifecycle_monotonicity (s : Store) (msgId : Nat) (ops : List BusOp) :
    ((s.statusOf msgId = some .done ∨ s.statusOf msgId = some .failed) →
      ((applyOps s ops).statusOf msgId = some .done ∨
       (applyOps s ops).statusOf msgId = some .failed)) ∧
    (∀ st : MessageStatus, s.statusOf msgId = some st → st ≠ .pending →
      (applyOps s ops).statusOf msgId ≠ some .pending) := by
  refine ⟨fun h => statusOf_applyOps_terminal ops h, fun st h hst hcontra => ?_⟩
  obtain ⟨st', hst', hne⟩ := statusOf_applyOps_never_pending ops h hst
  rw [hcontra] at hst'
  exact hne (by injection hst' with h'; exact h'.symm)

/-- C2 witness: a done message stays in `{done, failed}` across a claim
attempt, a complete and a fail. -/
theorem lifecycle_monotonicity_witness :
    demoDoneStore.statusOf 0 = some .done ∧
    ((applyOps demoDoneStore [.claimOp 5 0, .completeOp 6 0, .failOp 7 0 "x"]).statusOf 0
        = some .done ∨
     (applyOps demoDoneStore [.claimOp 5 0, .completeOp 6 0, .failOp 7 0 "x"]).statusOf 0
        = some .failed) ∧
    (applyOps demoDoneStore [.claimOp 5 0, .completeOp 6 0, .failOp 7 0 "x"]).statusOf 0
        ≠ some .pending := by
  have h := lifecycle_monotonicity demoDoneStore 0
    [.claimOp 5 0, .completeOp 6 0, .failOp 7 0 "x"]
  exact ⟨by decide, h.1 (Or.inl (by decide)), h.2 .done (by decide) (by decide)⟩

/-- C2 counterexample: the claim as stated is false — a `failed` message
is not immutable.  `failMessage` then `completeMessage` moves the demo
message `pending → failed → done`: a `failed → done` transition, outside
`pending → processing → {done, failed}`. -/
theorem lifecycle_monotonicity_counterexample :
    (applyOps demoStore [.failOp 1 0 "boom"]).statusOf 0 = some .failed ∧
    (applyOps demoStore [.failOp 1 0 "boom", .completeOp 2 0]).statusOf 0
      = some .done := by
  constructor <;> decide

/-! ## C3 -/

/-- C3: for every worker handler built on the shared skeleton: when the
claim returns no record (message not `pending`), the handler returns
immediately with no error, performing no further action — the result is
the untouched store, whatever the task body is; and any error raised
after a successful claim is caught once, recorded via
`failMessage(msg.id, errorMessage)`, and re-raised, so the message is
never left `processing` after a handler error. -/
theorem worker_skeleton (nowClaim nowFail : Nat) (s : Store) (msgId : Nat)
    (body : Store → Store × Except String Unit) (hwf : s.WF) :
    (s.statusOf msgId ≠ some .pending →
      runWorker nowClaim nowFail s msgId body = (s, .ok ())) ∧
    (∀ s₂ e, s.statusOf msgId = some .pending →
      body (Store.mk (s.messages.map (claimUpd nowClaim msgId)) s.nextId) =
        (s₂, .error e) →
      runWorker nowClaim nowFail s msgId body =
        (failMessage nowFail s₂ msgId e, .error e) ∧
      ((s₂.statusOf msgId).isSome →
        (runWorker nowClaim nowFail s msgId body).1.statusOf msgId
          = some .failed)) := by
  constructor
  · intro h
    unfold runWorker
    rw [claimMessage_eq_none nowClaim hwf h]
  · intro s₂ e hpend hbody
    obtain ⟨m, hfind, hmp, hid⟩ := statusOf_some_pending hpend
    have hrun : runWorker nowClaim nowFail s msgId body =
        (failMessage nowFail s₂ msgId e, .error e) := by
      unfold runWorker
      rw [claimMessage_eq_some nowClaim hfind hmp]
      dsimp only
      rw [hbody]
    refine ⟨hrun, fun hsome => ?_⟩
    rw [hrun]
    rw [statusOf_failMessage]
    cases hst : s₂.statusOf msgId with
    | none => rw [hst] at hsome; cases hsome
    | some st => simp

/-- C3 witness: a lost claim is a silent no-op; a body error on a claimed
message ends with the message `failed` and the error re-raised. -/
theorem worker_skeleton_witness :
    runWorker 1 2 demoDoneStore 0 (fun st => (st, .error "kaboom"))
      = (demoDoneStore, .ok ()) ∧
    (runWorker 1 2 demoStore 0 (fun st => (st, .error "kaboom"))).2
      = .error "kaboom" ∧
    (runWorker 1 2 demoStore 0 (fun st => (st, .error "kaboom"))).1.statusOf 0
      = some .failed := by
  have ha := (worker_skeleton 1 2 demoDoneStore 0 (fun st => (st, .error "kaboom"))
    ⟨by decide, by decide⟩).1 (by decide)
  have hb := (worker_skeleton 1 2 demoStore 0 (fun st => (st, .error "kaboom"))
    ⟨by decide, by decide⟩).2
    (Store.mk (demoStore.messages.map (claimUpd 1 0)) demoStore.nextId) "kaboom"
    (by decide) rfl
  exact ⟨ha, by rw [hb.1], hb.2 (by decide)⟩

/-! ## C4 -/

/-- C4 (spec-modelled: the scorer implementation is absent from src):
exact-match MCQ grading yields `score = correctCount / totalQuestions`,
exactly 0 when there are no questions; outcome is PASS when
`score ≥ 0.8`, PARTIAL when `0.5 ≤ score < 0.8`, FAIL when `score < 0.5`;
and the recommendation is the fixed function of outcome
(PASS→advance, PARTIAL→needs_review, FAIL→needs_remediation).  The
concrete evaluations are the boundary vectors of spec §8 and the scorer
unit tests of src/unnamed/part_012. -/
theorem scoring_contract :
    ((scoreMCQ [] []).2 = 0) ∧
    (∀ ua : List String, (scoreMCQ ua []).2 = 0) ∧
    (∀ ua qs, qs ≠ [] → (scoreMCQ ua qs).2 =
        ((scoreMCQ ua qs).1.countP (·.correct) : Rat) / (qs.length : Rat)) ∧
    ((scoreMCQ ["A", "C"] demoQuestions).1 = [⟨0, "A", true⟩, ⟨1, "C", true⟩] ∧
      (scoreMCQ ["A", "C"] demoQuestions).2 = 1) ∧
    ((scoreMCQ ["A", "D"] demoQuestions).1 = [⟨0, "A", true⟩, ⟨1, "D", false⟩] ∧
      (scoreMCQ ["A", "D"] demoQuestions).2 = 1 / 2) ∧
    ((scoreMCQ ["B", "D"] demoQuestions).1 = [⟨0, "B", false⟩, ⟨1, "D", false⟩] ∧
      (scoreMCQ ["B", "D"] demoQuestions).2 = 0) ∧
    (∀ sc : Rat,
      ((8 : Rat) / 10 ≤ sc → determineOutcome sc = .PASS) ∧
      ((5 : Rat) / 10 ≤ sc → sc < (8 : Rat) / 10 → determineOutcome sc = .PARTIAL) ∧
      (sc < (5 : Rat) / 10 → determineOutcome sc = .FAIL)) ∧
    (determineOutcome 1 = .PASS ∧ determineOutcome (8 / 10) = .PASS ∧
     determineOutcome (1 / 2) = .PARTIAL ∧ determineOutcome 0 = .FAIL) ∧
    (determineRecommendation .PASS = .advance ∧
     determineRecommendation .PARTIAL = .needs_review ∧
     determineRecommendation .FAIL = .needs_remediation) := by
  refine ⟨by norm_num [scoreMCQ], fun ua => ?_, fun ua qs hqs => ?_,
    ⟨by decide, ?_⟩, ⟨by decide, ?_⟩, ⟨by decide, ?_⟩,
    fun sc => ⟨fun h => ?_, fun h1 h2 => ?_, fun h => ?_⟩,
    ⟨?_, ?_, ?_, ?_⟩, by decide, by decide, by decide⟩
  · unfold scoreMCQ
    simp
  · unfold scoreMCQ
    simp only
    rw [if_neg (by simpa using hqs)]
  · show ((2 : Nat) : Rat) / ((2 : Nat) : Rat) = 1
    norm_num
  · show ((1 : Nat) : Rat) / ((2 : Nat) : Rat) = 1 / 2
    norm_num
  · show ((0 : Nat) : Rat) / ((2 : Nat) : Rat) = 0
    norm_num
  · unfold determineOutcome
    rw [if_pos h]
  · unfold determineOutcome
    rw [if_neg (not_le.mpr h2), if_pos h1]
  · unfold determineOutcome
    rw [if_neg (by linarith), if_neg (not_le.mpr h)]
  · unfold determineOutcome
    norm_num
  · unfold determineOutcome
    norm_num
  · unfold determineOutcome
    norm_num
  · unfold determineOutcome
    norm_num

/-- C4 witness: boundary scores through the fixed thresholds. -/
theorem scoring_contract_witness :
    determineOutcome (9 / 10) = .PASS ∧
    determineOutcome (6 / 10) = .PARTIAL ∧
    determineOutcome (3 / 10) = .FAIL ∧
    (scoreMCQ ["X"] []).2 = 0 := by
  have h := scoring_contract
  refine ⟨(h.2.2.2.2.2.2.1 (9 / 10)).1 (by norm_num),
    (h.2.2.2.2.2.2.1 (6 / 10)).2.1 (by norm_num) (by norm_num),
    (h.2.2.2.2.2.2.1 (3 / 10)).2.2 (by norm_num),
    h.2.1 ["X"]⟩

/-! ## C10 -/

/-- When a key is absent, the optional-string field parses to `none`. -/
theorem optStrField_of_absent (p : Payload) (k : String)
    (h : p.lookup k = none) : optStrField p k = .ok none := by
  unfold optStrField
  rw [h]

/-- C10: a JobDispatch payload without a `topic` key still parses (the
schema marks `topic` optional), and every worker handler substitutes the
fixed default topic "Agentic AI" (`handlerTopic`, the shared
`payload.topic ?? "Agentic AI"` computation) instead of failing. -/
theorem default_topic (p : Payload) (pd : JobDispatchPayload)
    (hparse : jobDispatchPayloadParse p = .ok pd)
    (hnotopic : p.lookup "topic" = none) :
    pd.topic = none ∧ handlerTopic pd = "Agentic AI" := by
  unfold jobDispatchPayloadParse at hparse
  simp only [optStrField_of_absent p "topic" hnotopic] at hparse
  repeat' split at hparse
  all_goals try cases hparse
  all_goals exact ⟨rfl, rfl⟩

/-- C10 witness: the demo payload without a `topic` key parses, and the
handlers proceed with "Agentic AI". -/
theorem default_topic_witness :
    jobDispatchPayloadParse demoAssessPayloadNoTopic = .ok demoParsedNoTopic ∧
    demoParsedNoTopic.topic = none ∧
    handlerTopic demoParsedNoTopic = "Agentic AI" := by
  have h := default_topic demoAssessPayloadNoTopic demoParsedNoTopic rfl rfl
  exact ⟨rfl, h.1, h.2⟩

/-! ## C5 -/

/-- C5 (code bug): `researchTopic` performs no usability check on its two
sources.  With both API keys absent — both sources returning their
unavailable markers — the pipeline does not fail with a `CapabilityError`
naming both sources: it hands the two marker strings straight to
synthesis, and the task succeeds whenever synthesis does (the concrete
run evaluates the code at the failing input).  The repository's own test
(src/agents/scout/research.test.ts line 191) expects a rejection matching
"Research failed: both sources returned errors" on this input; no such
path exists in src/agents/scout/research.ts lines 150-169. -/
theorem research_both_sources_unavailable :
    (∀ (topic : String) (synth : String → String → Except String LLMSkillMapOutput)
        (tav : String → TavilyHttp) (ppx : String → PerplexityHttp),
      researchTopic
        { tavilyApiKey := none, perplexityApiKey := none,
          tavilyHttp := tav, perplexityHttp := ppx, synthesize := synth } topic =
      synth topic
        (combinedResearch tavilyUnavailableMarker perplexityUnavailableMarker)) ∧
    researchTopic demoResearchEnvNoKeys "Agentic AI" = .ok demoSkillMap ∧
    searchTavily none (TavilyHttp.failure 500) = tavilyUnavailableMarker ∧
    searchPerplexity none (PerplexityHttp.failure 500) = perplexityUnavailableMarker :=
  ⟨fun _ _ _ _ => rfl, rfl, rfl, rfl⟩

/-! ## C6 -/

/-- The payload accepted by `agentMessageInsertParse` is stored verbatim,
and an absent status defaults to `pending`. -/
theorem agentMessageInsertParse_payload {r : RawInsert} {v : ValidatedInsert}
    (hv : agentMessageInsertParse r = .ok v) : v.payload = r.payload := by
  unfold agentMessageInsertParse at hv
  repeat' split at hv
  all_goals try cases hv
  all_goals rfl

/-- An omitted status parses to the default `pending`. -/
theorem agentMessageInsertParse_status_default {r : RawInsert} {v : ValidatedInsert}
    (hnone : r.status = none) (hv : agentMessageInsertParse r = .ok v) :
    v.status = .pending := by
  unfold agentMessageInsertParse at hv
  simp only [hnone] at hv
  repeat' split at hv
  all_goals try cases hv
  all_goals rfl

/-- C6 (amended): `dispatchMessage` validates `from_agent`, `to_agent`,
`message_type` and `status` against their closed enumerations, but the
payload only against `z.record(z.unknown())` — i.e. it must be a JSON
object, with no type-keyed schema applied at dispatch (the consuming
worker applies that); on success it inserts exactly one row carrying the
payload verbatim (never coerced), the validated status — which defaults
to `pending` when the input omits one, as every dispatch call in this
repository does — and the generated id and timestamps, and returns that
stored record; a validation failure is a `ValidationError` before any
insert. -/
theorem dispatch_contract (now : Nat) (s : Store) (r : RawInsert) :
    (∀ v, agentMessageInsertParse r = .ok v →
      dispatchMessage now s r =
        .ok ({ messages := s.messages ++
                 [⟨s.nextId, v.from_agent, v.to_agent, v.message_type,
                   v.payload, v.status, none, now, now⟩],
               nextId := s.nextId + 1 },
             ⟨s.nextId, v.from_agent, v.to_agent, v.message_type,
               v.payload, v.status, none, now, now⟩)) ∧
    (∀ e, agentMessageInsertParse r = .error e →
      dispatchMessage now s r = .error e) ∧
    (∀ v, agentMessageInsertParse r = .ok v → v.payload = r.payload) ∧
    (r.status = none → ∀ v, agentMessageInsertParse r = .ok v →
      v.status = .pending) := by
  refine ⟨fun v hv => ?_, fun e he => ?_,
    fun v hv => agentMessageInsertParse_payload hv,
    fun hnone v hv => agentMessageInsertParse_status_default hnone hv⟩
  · unfold dispatchMessage
    rw [hv]
  · unfold dispatchMessage
    rw [he]

/-- C6 witness: a valid input without a status is inserted with status
`pending` and returned with the generated id and timestamps; an input
with an unknown agent name is rejected. -/
theorem dispatch_contract_witness :
    dispatchMessage 7 demoStore demoGoodInsert =
      .ok ({ messages := demoStore.messages ++
               [⟨1, .master, .scout, .JobDispatch, demoAssessPayload,
                 .pending, none, 7, 7⟩],
             nextId := 2 },
           ⟨1, .master, .scout, .JobDispatch, demoAssessPayload,
             .pending, none, 7, 7⟩) ∧
    dispatchMessage 7 demoStore demoBadEnumInsert =
      .error "ValidationError: from_agent nobody" := by
  refine ⟨(dispatch_contract 7 demoStore demoGoodInsert).1
    ⟨.master, .scout, .JobDispatch, demoAssessPayload, .pending⟩ rfl, ?_⟩
  exact (dispatch_contract 7 demoStore demoBadEnumInsert).2.1
    "ValidationError: from_agent nobody" rfl

/-- C6 counterexample: the claim as stated is false — dispatch does not
validate the payload against the schema registered for the message type,
and does not always insert with status `pending`.  `demoBadInsert`
carries `message_type = JobDispatch` with an empty payload (which the
JobDispatch schema rejects) and `status = processing`; dispatch accepts
it, inserts it unchanged, and returns it. -/
theorem dispatch_contract_counterexample :
    dispatchMessage 5 demoStore demoBadInsert =
      .ok ({ messages := demoStore.messages ++ [demoBadMessage], nextId := 2 },
           demoBadMessage) ∧
    demoBadMessage.message_type = .JobDispatch ∧
    demoBadMessage.status = .processing ∧
    jobDispatchPayloadParse demoBadMessage.payload =
      .error "ValidationError: intent required" :=
  ⟨rfl, rfl, rfl, rfl⟩

/-! ## C7 -/

/-- In a prefix of a sorted list, an element strictly smaller than a
returned element appears at a strictly earlier position. -/
theorem sorted_take_order {l : List Message} (hsorted : l.Sorted createdLE)
    {M1 M2 : Message} (hM1 : M1 ∈ l) (hlt : M1.created_at < M2.created_at)
    (k : Nat) (i : Fin (l.take k).length) (hi : (l.take k).get i = M2) :
    ∃ j : Fin (l.take k).length, j.1 < i.1 ∧ (l.take k).get j = M1 := by
  have hj0 : l.indexOf M1 < l.length := List.indexOf_lt_length.mpr hM1
  have hgetj0 : l.get ⟨l.indexOf M1, hj0⟩ = M1 := List.indexOf_get hj0
  have hilen : i.1 < l.length :=
    lt_of_lt_of_le (by exact i.2) (by rw [List.length_take]; exact min_le_right _ _)
  have higet : l.get ⟨i.1, hilen⟩ = M2 := by
    rw [← hi, List.get_eq_getElem, List.get_eq_getElem, List.getElem_take]
  rcases Nat.lt_trichotomy (l.indexOf M1) i.1 with hj | hj | hj
  · refine ⟨⟨l.indexOf M1, lt_trans hj i.2⟩, hj, ?_⟩
    rw [List.get_eq_getElem, List.getElem_take]
    exact hgetj0
  · exfalso
    have hM1M2 : M1 = M2 := by
      rw [← hgetj0, ← higet]
      congr 1
      exact Fin.ext hj
    rw [hM1M2] at hlt
    exact lt_irrefl _ hlt
  · exfalso
    have hrel := hsorted.rel_get_of_lt
      (show (⟨i.1, hilen⟩ : Fin l.length) < ⟨l.indexOf M1, hj0⟩ from
        Fin.mk_lt_mk.mpr hj)
    rw [higet, hgetj0] at hrel
    exact absurd hrel (not_le.mpr hlt)

/-- C7: `pollMessages` returns at most `limit` messages, all of them rows
of the store addressed to the polled agent with status `pending`, in
`created_at`-ascending order, and has no side effect on the store; and
for two pending messages M1 created strictly before M2 addressed to the
same agent, M2 is never returned before M1 — whenever M2 appears, M1
appears at a strictly earlier position. -/
theorem poll_contract (s : Store) (a : AgentName) (k : Nat) :
    ((pollMessages s a k).length ≤ k) ∧
    (∀ m ∈ pollMessages s a k,
      m ∈ s.messages ∧ m.to_agent = a ∧ m.status = .pending) ∧
    ((pollMessages s a k).Sorted createdLE) ∧
    (applyOp s (.pollOp a k) = s) ∧
    (∀ M1 M2 : Message, M1 ∈ s.messages → M2 ∈ s.messages →
      M1.to_agent = a → M2.to_agent = a →
      M1.status = .pending → M2.status = .pending →
      M1.created_at < M2.created_at →
      ∀ i : Fin (pollMessages s a k).length,
        (pollMessages s a k).get i = M2 →
        ∃ j : Fin (pollMessages s a k).length,
          j.1 < i.1 ∧ (pollMessages s a k).get j = M1) := by
  refine ⟨?_, ?_, ?_, rfl, ?_⟩
  · rw [pollMessages, List.length_take]
    exact min_le_left _ _
  · intro m hm
    rw [pollMessages] at hm
    have hm' := (List.mem_insertionSort createdLE).mp (List.mem_of_mem_take hm)
    have hmem := List.mem_filter.mp hm'
    have hcond := of_decide_eq_true hmem.2
    exact ⟨hmem.1, hcond.1, hcond.2⟩
  · rw [pollMessages]
    exact List.Pairwise.sublist (List.take_sublist k _)
      (List.sorted_insertionSort createdLE _)
  · intro M1 M2 h1 h2 ht1 ht2 hs1 hs2 hlt i hi
    have hM1f : M1 ∈ s.messages.filter
        (fun m => decide (m.to_agent = a ∧ m.status = .pending)) :=
      List.mem_filter.mpr ⟨h1, by simp [ht1, hs1]⟩
    have hM1s := (List.mem_insertionSort createdLE).mpr hM1f
    exact sorted_take_order (List.sorted_insertionSort createdLE _) hM1s hlt k i hi

/-- C7 witness: polling a two-message mailbox returns the older message
first, and a limit of 1 truncates to the oldest. -/
theorem poll_contract_witness :
    ((pollMessages demoStore .assessment 10).length ≤ 10) ∧
    (∀ m ∈ pollMessages demoStore .assessment 10,
      m ∈ demoStore.messages ∧ m.to_agent = .assessment ∧
        m.status = .pending) ∧
    (applyOp demoStore (.pollOp .assessment 10) = demoStore) := by
  have h := poll_contract demoStore .assessment 10
  exact ⟨h.1, h.2.1, h.2.2.2.1⟩

/-! ## C8 -/

/-- C8: when the classified intent has no entry in the static
`INTENT_TO_AGENT` table — which happens exactly for the explicit
`unknown` intent — the router dispatches no message: the store is
unchanged, the result carries `dispatchedTo = null` and a null
dispatched-message id, and the response is the canned clarification text
of `buildResponse`. -/
theorem route_unmapped_intent (now durationMs : Nat) (s : Store)
    (userId rawMessage : String) (c : Classification)
    (topicLookup : Option String) (h : INTENT_TO_AGENT c.intent = none) :
    handleUserMessage now durationMs s userId rawMessage c topicLookup =
      .ok (s,
        ⟨c.intent, c.topic, c.confidence, none, none,
          buildResponse c.intent c.topic none⟩,
        ⟨userId, rawMessage, c.intent, none,
          buildResponse c.intent c.topic none, none, durationMs⟩) ∧
    c.intent = .unknown ∧
    buildResponse c.intent c.topic none =
      "I\x27m not sure what you\x27d like to do. Try asking me to research a topic, " ++
      "create learning content, take a quiz, or review your learning progress." := by
  have hunk : c.intent = .unknown := by
    cases hc : c.intent <;> rw [hc] at h <;> first | rfl | cases h
  obtain ⟨ci, ct, cc⟩ := c
  simp only at hunk
  subst hunk
  exact ⟨rfl, rfl, rfl⟩

/-- C8 witness: an `unknown` classification routes nowhere and yields the
clarification response. -/
theorem route_unmapped_intent_witness :
    handleUserMessage 3 4 demoStore "user-1" "???" ⟨.unknown, none, 1⟩ none =
      .ok (demoStore,
        ⟨.unknown, none, 1, none, none, buildResponse .unknown none none⟩,
        ⟨"user-1", "???", .unknown, none, buildResponse .unknown none none,
          none, 4⟩) ∧
    INTENT_TO_AGENT .unknown = none := by
  refine ⟨?_, rfl⟩
  exact (route_unmapped_intent 3 4 demoStore "user-1" "???"
    ⟨.unknown, none, 1⟩ none rfl).1

/-! ## C9 -/

/-- `statusOf` over an append, list form. -/
theorem statusOf_mk_append (l₁ l₂ : List Message) (n n' : Nat) (j : Nat)
    (h : ((Store.mk l₁ n).statusOf j).isSome) :
    (Store.mk (l₁ ++ l₂) n').statusOf j = (Store.mk l₁ n).statusOf j := by
  unfold Store.statusOf at *
  simp only at h ⊢
  rw [List.find?_append]
  cases hf : l₁.find? (fun m => m.id == j) with
  | none => rw [hf] at h; cases h
  | some mm => simp [Option.or]

/-- Completing a message that is `processing` in the left part of an
append yields `done`. -/
theorem statusOf_complete_append (now : Nat) (l₁ l₂ : List Message)
    (n n₂ : Nat) (j : Nat)
    (h : (Store.mk l₁ n).statusOf j = some .processing) :
    (completeMessage now (Store.mk (l₁ ++ l₂) n₂) j).statusOf j = some .done := by
  unfold completeMessage
  rw [statusOf_updateMessageStatus]
  rw [statusOf_mk_append l₁ l₂ n n₂ j (by rw [h]; rfl)]
  rw [h]
  simp

/-- Completing any message keeps every routing triple, and the rows past
the original length are exactly the appended ones. -/
theorem routeOf_complete_append (now : Nat) (l₁ l₂ : List Message)
    (n₂ : Nat) (j : Nat) (len : Nat) (hlen : l₁.length = len) :
    (((completeMessage now (Store.mk (l₁ ++ l₂) n₂) j).messages.drop len).map
      routeOf) = l₂.map routeOf := by
  unfold completeMessage updateMessageStatus
  simp only
  rw [← List.map_drop, List.drop_left' hlen, List.map_map]
  exact List.map_congr_left
    (fun m _ => by simp only [Function.comp_apply]; split <;> rfl)

/-- On the happy path with an empty gap list, the assessment body makes
exactly one dispatch (the `AssessmentResult`) and completes. -/
theorem assessmentBody_ok_nogaps
    (nowBody : Nat) (env : AssessmentEnv) (msg : Message) (S₁ : Store)
    {pd : JobDispatchPayload} {row : ContentRow} {result : ScoringResult}
    {savedId cid : String}
    (hparse : jobDispatchPayloadParse msg.payload = .ok pd)
    (hcid : pd.content_item_id = some cid)
    (hrow : env.contentItem cid = some row)
    (hscore : env.scoreAnswers (payloadUserAnswers msg.payload) row.questions
        (handlerTopic pd) = .ok result)
    (hins : env.insertAssessmentResult = .ok savedId)
    (hg : ¬(result.gaps.length > 0)) :
    assessmentBody nowBody env msg S₁ =
      (completeMessage nowBody
        (Store.mk
          (S₁.messages ++
            [⟨S₁.nextId, .assessment, .master, .AssessmentResult,
              assessmentResultPayload pd.user_id (handlerTopic pd) result savedId,
              .pending, none, nowBody, nowBody⟩])
          (S₁.nextId + 1))
        msg.id, .ok ()) := by
  have hd1 : dispatchMessage nowBody S₁
      { from_agent := "assessment", to_agent := "master",
        message_type := "AssessmentResult",
        payload := assessmentResultPayload pd.user_id (handlerTopic pd) result savedId,
        status := some "pending" } =
      .ok (Store.mk
            (S₁.messages ++
              [⟨S₁.nextId, .assessment, .master, .AssessmentResult,
                assessmentResultPayload pd.user_id (handlerTopic pd) result savedId,
                .pending, none, nowBody, nowBody⟩])
            (S₁.nextId + 1),
          ⟨S₁.nextId, .assessment, .master, .AssessmentResult,
            assessmentResultPayload pd.user_id (handlerTopic pd) result savedId,
            .pending, none, nowBody, nowBody⟩) := rfl
  unfold assessmentBody
  rw [hparse]
  dsimp only
  rw [hcid]
  dsimp only
  rw [hrow]
  dsimp only
  rw [hscore]
  dsimp only
  rw [hins]
  dsimp only
  rw [hd1]
  dsimp only
  rw [if_neg hg]

/-- On the happy path with a non-empty gap list, the assessment body makes
two dispatches (`AssessmentResult`, then `GapSignal`) and completes. -/
theorem assessmentBody_ok_gaps
    (nowBody : Nat) (env : AssessmentEnv) (msg : Message) (S₁ : Store)
    {pd : JobDispatchPayload} {row : ContentRow} {result : ScoringResult}
    {savedId cid : String}
    (hparse : jobDispatchPayloadParse msg.payload = .ok pd)
    (hcid : pd.content_item_id = some cid)
    (hrow : env.contentItem cid = some row)
    (hscore : env.scoreAnswers (payloadUserAnswers msg.payload) row.questions
        (handlerTopic pd) = .ok result)
    (hins : env.insertAssessmentResult = .ok savedId)
    (hg : result.gaps.length > 0) :
    assessmentBody nowBody env msg S₁ =
      (completeMessage nowBody
        (Store.mk
          ((S₁.messages ++
            [⟨S₁.nextId, .assessment, .master, .AssessmentResult,
              assessmentResultPayload pd.user_id (handlerTopic pd) result savedId,
              .pending, none, nowBody, nowBody⟩]) ++
            [⟨S₁.nextId + 1, .assessment, .learning, .GapSignal,
              gapSignalPayload (handlerTopic pd) result pd.user_id savedId,
              .pending, none, nowBody, nowBody⟩])
          (S₁.nextId + 1 + 1))
        msg.id, .ok ()) := by
  have hd1 : dispatchMessage nowBody S₁
      { from_agent := "assessment", to_agent := "master",
        message_type := "AssessmentResult",
        payload := assessmentResultPayload pd.user_id (handlerTopic pd) result savedId,
        status := some "pending" } =
      .ok (Store.mk
            (S₁.messages ++
              [⟨S₁.nextId, .assessment, .master, .AssessmentResult,
                assessmentResultPayload pd.user_id (handlerTopic pd) result savedId,
                .pending, none, nowBody, nowBody⟩])
            (S₁.nextId + 1),
          ⟨S₁.nextId, .assessment, .master, .AssessmentResult,
            assessmentResultPayload pd.user_id (handlerTopic pd) result savedId,
            .pending, none, nowBody, nowBody⟩) := rfl
  have hd2 : dispatchMessage nowBody
      (Store.mk
        (S₁.messages ++
          [⟨S₁.nextId, .assessment, .master, .AssessmentResult,
            assessmentResultPayload pd.user_id (handlerTopic pd) result savedId,
            .pending, none, nowBody, nowBody⟩])
        (S₁.nextId + 1))
      { from_agent := "assessment", to_agent := "learning",
        message_type := "GapSignal",
        payload := gapSignalPayload (handlerTopic pd) result pd.user_id savedId,
        status := some "pending" } =
      .ok (Store.mk
            ((S₁.messages ++
              [⟨S₁.nextId, .assessment, .master, .AssessmentResult,
                assessmentResultPayload pd.user_id (handlerTopic pd) result savedId,
                .pending, none, nowBody, nowBody⟩]) ++
              [⟨S₁.nextId + 1, .assessment, .learning, .GapSignal,
                gapSignalPayload (handlerTopic pd) result pd.user_id savedId,
                .pending, none, nowBody, nowBody⟩])
            (S₁.nextId + 1 + 1),
          ⟨S₁.nextId + 1, .assessment, .learning, .GapSignal,
            gapSignalPayload (handlerTopic pd) result pd.user_id savedId,
            .pending, none, nowBody, nowBody⟩) := rfl
  unfold assessmentBody
  rw [hparse]
  dsimp only
  rw [hcid]
  dsimp only
  rw [hrow]
  dsimp only
  rw [hscore]
  dsimp only
  rw [hins]
  dsimp only
  rw [hd1]
  dsimp only
  rw [if_pos hg]
  rw [hd2]

/-- C9: on a successful assessment run (message claimed, payload valid,
content item found, scoring and persistence succeed), the worker ends
with no error, the original message marked `done`, and the dispatched
follow-ups are exactly one `AssessmentResult` to master plus — exactly
when the identified gap list is non-empty — one `GapSignal` to the
learning agent: one follow-up dispatch without gaps, two with gaps. -/
theorem assessment_dispatches
    (nowClaim nowBody nowFail : Nat) (env : AssessmentEnv) (s : Store)
    (msg : Message) (pd : JobDispatchPayload) (row : ContentRow)
    (result : ScoringResult) (savedId cid : String)
    (hwf : s.WF)
    (hpend : s.statusOf msg.id = some .pending)
    (hparse : jobDispatchPayloadParse msg.payload = .ok pd)
    (hcid : pd.content_item_id = some cid)
    (hrow : env.contentItem cid = some row)
    (hscore : env.scoreAnswers (payloadUserAnswers msg.payload) row.questions
        (handlerTopic pd) = .ok result)
    (hins : env.insertAssessmentResult = .ok savedId) :
    ((assessmentHandleMessage nowClaim nowBody nowFail env s msg).2 = .ok ()) ∧
    ((assessmentHandleMessage nowClaim nowBody nowFail env s msg).1.statusOf
        msg.id = some .done) ∧
    (((assessmentHandleMessage nowClaim nowBody nowFail env s msg).1.messages.drop
        s.messages.length).map routeOf =
      (.assessment, .master, .AssessmentResult) ::
        (if result.gaps.length > 0
          then [(.assessment, .learning, .GapSignal)] else [])) := by
  obtain ⟨m, hfind, hmp, hid⟩ := statusOf_some_pending hpend
  have hclaim := claimMessage_eq_some nowClaim hfind hmp
  have hstatus₁ :
      (Store.mk (s.messages.map (claimUpd nowClaim msg.id)) s.nextId).statusOf
        msg.id = some .processing := by
    rw [statusOf_map_claimUpd, hpend]
    simp
  have hlen : (s.messages.map (claimUpd nowClaim msg.id)).length
      = s.messages.length := by
    simp
  unfold assessmentHandleMessage runWorker
  rw [hclaim]
  dsimp only
  by_cases hg : result.gaps.length > 0
  · rw [assessmentBody_ok_gaps nowBody env msg _ hparse hcid hrow hscore hins hg]
    dsimp only
    refine ⟨rfl, ?_, ?_⟩
    · rw [List.append_assoc]
      exact statusOf_complete_append nowBody _ _ s.nextId _ msg.id hstatus₁
    · rw [List.append_assoc]
      rw [routeOf_complete_append nowBody _ _ _ msg.id s.messages.length hlen]
      rw [if_pos hg]
      rfl
  · rw [assessmentBody_ok_nogaps nowBody env msg _ hparse hcid hrow hscore hins hg]
    dsimp only
    refine ⟨rfl, ?_, ?_⟩
    · exact statusOf_complete_append nowBody _ _ s.nextId _ msg.id hstatus₁
    · rw [routeOf_complete_append nowBody _ _ _ msg.id s.messages.length hlen]
      rw [if_neg hg]
      rfl

/-- C9 witness: the end-to-end assessment scenario on the demo store —
gaps found, so exactly two follow-up dispatches, and the original message
ends `done`. -/
theorem assessment_dispatches_witness :
    ((assessmentHandleMessage 1 2 3 demoEnv demoStore demoMessage).2
      = .ok ()) ∧
    ((assessmentHandleMessage 1 2 3 demoEnv demoStore demoMessage).1.statusOf 0
      = some .done) ∧
    (((assessmentHandleMessage 1 2 3 demoEnv demoStore demoMessage).1.messages.drop
        demoStore.messages.length).map routeOf =
      [(.assessment, .master, .AssessmentResult),
       (.assessment, .learning, .GapSignal)]) := by
  have h := assessment_dispatches 1 2 3 demoEnv demoStore demoMessage
    demoParsedAssess ⟨demoQuestions, "topic-1"⟩ demoScoring
    "00000000-0000-0000-0000-000000000009" demoContentId
    ⟨by decide, by decide⟩ (by decide) rfl rfl rfl rfl rfl
  refine ⟨h.1, h.2.1, ?_⟩
  rw [h.2.2]
  rfl

end AdaptLearn
